import Mathlib

/-!
Verification of the compound-growth simulator.

The development shallowly embeds the three source files of the repository:

* `types.ts` — the data model (`SimulationDataPoint`, `SimulationStatus`,
  `AIInsight`).
* the top-level `App` component — the simulation controller: its state hooks
  become the fields of `AppState`, and `resetSimulation`, `calculateData`,
  `step` (the per-tick state update that fires once the 20 ms pacing interval
  elapsed), `togglePlay`, `handleRateChange`, `handleDaysChange` and the
  completion effect become Lean functions on `AppState`.
* `VisualGrid.tsx` / `geminiService.ts` — the orb sizing formula and the
  insight request with its two fallback payloads.

Numbers are modelled exactly: JavaScript numbers become `ℚ` (the simulated
values), the orb size over `ℝ` (it uses a real logarithm).  The unguarded
array access `prevData[prevData.length - 1]` in `step` is modelled by
`List.getLast?`, with `step` returning `none` when the access would be out of
bounds.  Events delivered to the controller (animation ticks, button clicks,
slider edits, effect evaluations, insight responses) are an inductive `Event`
type, and `Reachable` is the set of states reachable from the freshly mounted
component.  The field `genRequests` of `AppState` is ghost instrumentation
(it is not in the source): it counts the insight requests issued since the
last reset, i.e. within the current run generation; it is incremented exactly
where the source fires a request and zeroed exactly where a new run
generation begins (`resetSimulation`).
-/

/-- `SimulationDataPoint` from `types.ts`. -/
structure SimulationDataPoint where
  day : ℕ
  value : ℚ
  baseline : ℚ
  deriving DecidableEq

/-- `SimulationStatus` from `types.ts`. -/
inductive SimulationStatus where
  | IDLE
  | RUNNING
  | PAUSED
  | COMPLETED
  deriving DecidableEq

/-- `AIInsight` from `types.ts`. -/
structure AIInsight where
  title : String
  message : String
  analogy : String
  deriving DecidableEq

/-- The state hooks of the `App` component, plus the ghost counter
`genRequests` (number of insight requests issued in the current run
generation; not a source field). -/
structure AppState where
  status : SimulationStatus
  currentDay : ℕ
  days : ℕ
  improvementRate : ℚ
  data : List SimulationDataPoint
  currentValue : ℚ
  insight : Option AIInsight
  loadingInsight : Bool
  genRequests : ℕ
  deriving DecidableEq

/-- The freshly mounted component: `useState` initial values
(`IDLE`, day 0, `DEFAULT_DAYS = 365`, `DEFAULT_IMPROVEMENT = 0.01`,
`data = []`, value 1, no insight, not loading). -/
def initialState : AppState :=
  { status := .IDLE
    currentDay := 0
    days := 365
    improvementRate := 1 / 100
    data := []
    currentValue := 1
    insight := none
    loadingInsight := false
    genRequests := 0 }

/-- `resetSimulation`: status IDLE, day 0, value 1, series `[point 0]`,
insight cleared.  (`loadingInsight` is NOT touched, exactly as in the
source.)  The ghost counter is zeroed: a reset starts a new run
generation. -/
def resetSimulation (s : AppState) : AppState :=
  { s with
    status := .IDLE
    currentDay := 0
    currentValue := 1
    data := [{ day := 0, value := 1, baseline := 1 }]
    insight := none
    genRequests := 0 }

/-- The loop body of `calculateData`: `n` remaining iterations, loop index
`i`, accumulator `val`; each iteration pushes `{day i, value val, baseline 1}`
and multiplies `val` by `1 + rate`. -/
def calculateDataLoop (rate : ℚ) : ℕ → ℕ → ℚ → List SimulationDataPoint
  | 0, _, _ => []
  | n + 1, i, val =>
      { day := i, value := val, baseline := 1 } ::
        calculateDataLoop rate n (i + 1) (val * (1 + rate))

/-- `calculateData`: the closed-form series for days `0 .. days` built by the
`for` loop starting from `val = 1`. -/
def calculateData (days : ℕ) (rate : ℚ) : List SimulationDataPoint :=
  calculateDataLoop rate (days + 1) 0 1

/-- The state update performed by one delivered animation tick in `step`
(the body guarded by `elapsed > ANIMATION_SPEED_MS`): if `currentDay + 1`
exceeds `days` the status becomes COMPLETED and nothing else changes;
otherwise `currentValue` is multiplied by `1 + improvementRate` and a point
for the next day is appended, its value computed from the last element of
the series.  The source reads `prevData[prevData.length - 1]` without a
bounds check; an empty series therefore yields `none` (the crash). -/
def step (s : AppState) : Option AppState :=
  if s.currentDay + 1 > s.days then
    some { s with status := .COMPLETED }
  else
    match s.data.getLast? with
    | none => none
    | some last =>
        some { s with
          currentValue := s.currentValue * (1 + s.improvementRate)
          data := s.data ++
            [{ day := s.currentDay + 1
               value := last.value * (1 + s.improvementRate)
               baseline := 1 }]
          currentDay := s.currentDay + 1 }

/-- `togglePlay`: RUNNING pauses; COMPLETED, or IDLE with day 0 (the `&&`
binds tighter than `||` in the source condition), starts fresh via
`resetSimulation` plus seeding `data = [point 0]` and status RUNNING; every
other state resumes by setting status RUNNING only. -/
def togglePlay (s : AppState) : AppState :=
  if s.status = .RUNNING then
    { s with status := .PAUSED }
  else if s.status = .COMPLETED ∨ (s.status = .IDLE ∧ s.currentDay = 0) then
    { resetSimulation s with
      data := [{ day := 0, value := 1, baseline := 1 }]
      status := .RUNNING }
  else
    { s with status := .RUNNING }

/-- `handleRateChange`: stores `val / 100` as the new rate and resets.  The
source performs no validation of `val`. -/
def handleRateChange (s : AppState) (val : ℚ) : AppState :=
  resetSimulation { s with improvementRate := val / 100 }

/-- `handleDaysChange`: stores the parsed value as the new duration and
resets.  The source performs no validation of `n`. -/
def handleDaysChange (s : AppState) (n : ℕ) : AppState :=
  resetSimulation { s with days := n }

/-- The guard of the completion effect:
`status === COMPLETED && !insight && !loadingInsight`. -/
def effectGuard (s : AppState) : Bool :=
  match s.status, s.insight, s.loadingInsight with
  | .COMPLETED, none, false => true
  | _, _, _ => false

/-- Evaluating the completion effect: when the guard holds, `fetchInsight`
sets `loadingInsight` and issues the request (ghost counter incremented);
otherwise nothing happens. -/
def effectFire (s : AppState) : AppState :=
  if effectGuard s then
    { s with loadingInsight := true, genRequests := s.genRequests + 1 }
  else s

/-- The pending insight request resolving with payload `r`:
`setInsight(result); setLoadingInsight(false)`. -/
def insightArrive (s : AppState) (r : AIInsight) : AppState :=
  { s with insight := some r, loadingInsight := false }

/-- The events the controller can receive: a delivered animation tick, the
play/pause button, the reset button, a slider edit of the rate or of the
duration, an evaluation of the completion effect, and the resolution of a
pending insight request. -/
inductive Event where
  | tick
  | togglePlay
  | reset
  | rateChange (val : ℚ)
  | daysChange (n : ℕ)
  | effectRun
  | insightArrive (r : AIInsight)
  deriving DecidableEq

/-- Event semantics.  Ticks are delivered only while RUNNING (the animation
loop is scheduled when the status becomes RUNNING and cancelled by pause and
reset); the two sliders are disabled while RUNNING; an insight response can
only arrive while a request is pending.  In every gated-off situation the
event is a no-op. -/
def applyEvent (s : AppState) : Event → Option AppState
  | .tick => if s.status = .RUNNING then step s else some s
  | .togglePlay => some (togglePlay s)
  | .reset => some (resetSimulation s)
  | .rateChange v =>
      if s.status = .RUNNING then some s else some (handleRateChange s v)
  | .daysChange n =>
      if s.status = .RUNNING then some s else some (handleDaysChange s n)
  | .effectRun => some (effectFire s)
  | .insightArrive r =>
      if s.loadingInsight then some (insightArrive s r) else some s

/-- States reachable from the freshly mounted component. -/
inductive Reachable : AppState → Prop
  | init : Reachable initialState
  | next {s s' : AppState} (e : Event) :
      Reachable s → applyEvent s e = some s' → Reachable s'

/-- Iterating `step` a given number of times. -/
def runTicks (s : AppState) : ℕ → Option AppState
  | 0 => some s
  | k + 1 => (runTicks s k).bind step

/-- Folding a whole event trace. -/
def runTrace (s : AppState) : List Event → Option AppState
  | [] => some s
  | e :: es => (applyEvent s e).bind (fun s' => runTrace s' es)

/-- Pressing play on a freshly configured component: duration `d`, rate
`rate`, everything else as mounted. -/
def startFresh (d : ℕ) (rate : ℚ) : AppState :=
  togglePlay { initialState with days := d, improvementRate := rate }

/-- The closed-form point of day `i`: value `(1 + rate) ^ i`. -/
def canonPoint (rate : ℚ) (i : ℕ) : SimulationDataPoint :=
  { day := i, value := (1 + rate) ^ i, baseline := 1 }

/-- The closed-form series for days `0 .. k`. -/
def canonData (rate : ℚ) (k : ℕ) : List SimulationDataPoint :=
  (List.range (k + 1)).map (canonPoint rate)

/-- The RUNNING state after `k` ticks of a fresh run with duration `d` and
rate `rate`. -/
def canonState (d : ℕ) (rate : ℚ) (k : ℕ) : AppState :=
  { status := .RUNNING
    currentDay := k
    days := d
    improvementRate := rate
    data := canonData rate k
    currentValue := (1 + rate) ^ k
    insight := none
    loadingInsight := false
    genRequests := 0 }

/-- The series prefix invariant: the series has one point per day `0 ..
currentDay` and `series[i].day = i` at every index. -/
def seriesInv (s : AppState) : Prop :=
  s.data.length = s.currentDay + 1 ∧
    s.data.map (fun p => p.day) = List.range s.data.length

/-- The inductive state invariant: the series prefix invariant (except in
the freshly mounted state, whose series is empty), IDLE states sit at day 0,
and at most one insight request is ever outstanding or satisfied per run
generation. -/
def StateInv (s : AppState) : Prop :=
  (s = initialState ∨ seriesInv s) ∧
    (s.status = .IDLE → s.currentDay = 0) ∧
    s.genRequests ≤ 1 ∧
    (1 ≤ s.genRequests → s.loadingInsight = true ∨ s.insight ≠ none)

/-- The orb diameter of `VisualGrid`:
`Math.min(400, 64 + Math.log2(currentValue) * 40)`. -/
noncomputable def orbSize (currentValue : ℝ) : ℝ :=
  min 400 (64 + Real.logb 2 currentValue * 40)

/-- The fallback payload returned by `generateGrowthInsight` when no API key
is configured. -/
def fallbackNotConfigured : AIInsight :=
  { title := "Configuration Required"
    message := "Please set your API_KEY to receive personalized AI insights about your growth simulation."
    analogy := "Missing Key" }

/-- The fallback payload returned by `generateGrowthInsight` when the
external call fails. -/
def fallbackCallFailed : AIInsight :=
  { title := "Insight Unavailable"
    message := "We couldn\x27t generate a custom insight right now, but look at that chart! The growth speaks for itself."
    analogy := "N/A" }

/-- `generateGrowthInsight` from the service module.  `apiKey` models
`process.env.API_KEY || ""` (the empty string is falsy); `callResult` models
the outcome of the guarded block (network call, text extraction and JSON
parsing): `Except.error` covers every thrown error, caught by the
`catch`. -/
def generateGrowthInsight (apiKey : String)
    (callResult : Except String AIInsight) : AIInsight :=
  if apiKey = "" then fallbackNotConfigured
  else
    match callResult with
    | .ok r => r
    | .error _ => fallbackCallFailed

/-- A concrete reachable state: the mounted component after the duration
slider was set to 1 (IDLE, day 0, one-day run, series seeded by the implicit
reset). -/
def wState1 : AppState := handleDaysChange initialState 1

/-- A concrete reachable state: `wState1` after pressing play (fresh start,
RUNNING at day 0). -/
def wState2 : AppState := togglePlay wState1

/-- A concrete reachable state: `wState2` after one tick (RUNNING at day 1,
which equals the configured duration). -/
def wState3 : AppState :=
  { status := .RUNNING
    currentDay := 1
    days := 1
    improvementRate := 1 / 100
    data := [{ day := 0, value := 1, baseline := 1 },
             { day := 1, value := 101 / 100, baseline := 1 }]
    currentValue := 101 / 100
    insight := none
    loadingInsight := false
    genRequests := 0 }

/-- A concrete reachable state: `wState3` after the terminal tick
(COMPLETED, nothing else changed). -/
def wState4 : AppState := { wState3 with status := .COMPLETED }

/-- A concrete reachable state: `wState4` after the completion effect fired
the insight request. -/
def wState5 : AppState := { wState4 with loadingInsight := true, genRequests := 1 }

/-- A concrete mid-run PAUSED state used to exhibit that configuration
changes are applied unconditionally. -/
def sPaused : AppState :=
  { status := .PAUSED
    currentDay := 1
    days := 5
    improvementRate := 1 / 100
    data := [{ day := 0, value := 1, baseline := 1 },
             { day := 1, value := 101 / 100, baseline := 1 }]
    currentValue := 101 / 100
    insight := none
    loadingInsight := false
    genRequests := 0 }

/-- A concrete state with status IDLE and a positive `currentDay` (not
reachable; used to test the resume branch of `togglePlay` on such
states). -/
def sIdleStale : AppState :=
  { status := .IDLE
    currentDay := 1
    days := 5
    improvementRate := 1 / 100
    data := [{ day := 0, value := 1, baseline := 1 },
             { day := 1, value := 101 / 100, baseline := 1 }]
    currentValue := 101 / 100
    insight := none
    loadingInsight := false
    genRequests := 0 }

/-- An arbitrary insight payload standing for the response of a request
issued in an earlier run generation. -/
def staleInsight : AIInsight :=
  { title := "Stale", message := "From the previous run", analogy := "stale" }

/-- An event trace exhibiting the stale-pending-request scenario: a one-day
run completes and fires a request; the user resets and starts a second run
before the response arrives; the second run completes while the first
request is still pending, so the completion effect is blocked; the stale
response then arrives and caches an insight, blocking the effect for
good. -/
def badTrace : List Event :=
  [.daysChange 1, .togglePlay, .tick, .tick, .effectRun, .reset,
   .togglePlay, .tick, .tick, .effectRun, .insightArrive staleInsight, .effectRun]

/-- The iterative loop of `calculateData` produces the closed-form geometric series. -/
theorem calculateDataLoop_eq (rate : ℚ) :
    ∀ (n i : ℕ) (val : ℚ),
      calculateDataLoop rate n i val =
        (List.range n).map
          (fun j => { day := i + j, value := val * (1 + rate) ^ j, baseline := 1 }) := by
  intro n
  induction n with
  | zero => intro i val; simp [calculateDataLoop]
  | succ m ih =>
      intro i val
      rw [List.range_succ_eq_map]
      simp only [calculateDataLoop, List.map_cons, List.map_map, ih]
      refine List.cons_eq_cons.mpr ⟨by simp, ?_⟩
      apply List.map_congr_left
      intro j _
      simp only [Function.comp, SimulationDataPoint.mk.injEq]
      refine ⟨by omega, by rw [pow_succ]; ring, trivial⟩

/-- The series built by `calculateData` is the pointwise closed form `(1 + rate) ^ k`. -/
theorem calculateData_eq (d : ℕ) (rate : ℚ) :
    calculateData d rate = (List.range (d + 1)).map (canonPoint rate) := by
  rw [calculateData, calculateDataLoop_eq]
  apply List.map_congr_left
  intro j _
  simp [canonPoint]

theorem canonData_succ (rate : ℚ) (k : ℕ) :
    canonData rate (k + 1) = canonData rate k ++ [canonPoint rate (k + 1)] := by
  rw [canonData, canonData, List.range_succ, List.map_append]
  simp

theorem canonData_getLast (rate : ℚ) (k : ℕ) :
    (canonData rate k).getLast? = some (canonPoint rate k) := by
  rw [canonData, List.range_succ, List.map_append]
  simp

/-- One non-terminal tick advances the canonical running state by one day. -/
theorem step_canon (d : ℕ) (rate : ℚ) (k : ℕ) (h : k < d) :
    step (canonState d rate k) = some (canonState d rate (k + 1)) := by
  have hnot : ¬ k + 1 > d := by omega
  simp only [step, canonState, hnot, if_false, canonData_getLast]
  simp [canonData_succ, canonPoint, pow_succ]

/-- Pressing play on a fresh configuration yields the canonical day-0 running state. -/
theorem startFresh_eq (d : ℕ) (rate : ℚ) :
    startFresh d rate = canonState d rate 0 := by
  have h1 : List.range 1 = [0] := rfl
  simp [startFresh, togglePlay, initialState, resetSimulation, canonState, canonData, canonPoint, h1]

/-- Iterating ticks from a fresh start stays on the canonical trajectory. -/
theorem runTicks_canon (d : ℕ) (rate : ℚ) :
    ∀ k, k ≤ d → runTicks (canonState d rate 0) k = some (canonState d rate k) := by
  intro k
  induction k with
  | zero => intro _; rfl
  | succ m ih =>
      intro hm
      rw [runTicks, ih (by omega)]
      exact step_canon d rate m (by omega)

theorem take_range_of_le {m n : ℕ} (h : m ≤ n) : (List.range n).take m = List.range m := by
  apply List.ext_getElem?
  intro i
  by_cases hi : i < m
  · rw [List.getElem?_take_of_lt hi, List.getElem?_range (by omega), List.getElem?_range hi]
  · have h1 : ((List.range n).take m).length ≤ i := by
      simp only [List.length_take, List.length_range]
      omega
    have h2 : (List.range m).length ≤ i := by
      simp only [List.length_range]
      omega
    rw [List.getElem?_eq_none h1, List.getElem?_eq_none h2]

theorem stateInv_init : StateInv initialState :=
  ⟨Or.inl rfl, fun _ => rfl, by simp [initialState], by simp [initialState]⟩

theorem seriesInv_reset (s : AppState) : seriesInv (resetSimulation s) := by
  constructor
  · rfl
  · rfl

theorem stateInv_reset (s : AppState) : StateInv (resetSimulation s) := by
  refine ⟨Or.inr (seriesInv_reset s), fun _ => rfl, by simp [resetSimulation], ?_⟩
  intro hh
  simp [resetSimulation] at hh

theorem effectGuard_eq_true {s : AppState} (h : effectGuard s = true) :
    s.status = .COMPLETED ∧ s.insight = none ∧ s.loadingInsight = false := by
  unfold effectGuard at h
  cases hst : s.status <;> cases hins : s.insight <;> cases hld : s.loadingInsight <;>
    simp_all

/-- Every controller event preserves the state invariant. -/
theorem stateInv_preserved {s s' : AppState} (e : Event)
    (h : applyEvent s e = some s') (hs : StateInv s) : StateInv s' := by
  obtain ⟨hser, hidle, hgle, hgreq⟩ := hs
  cases e with
  | tick =>
      by_cases hr : s.status = .RUNNING
      · simp only [applyEvent, hr, if_true] at h
        have hne : s ≠ initialState := by
          intro he
          rw [he] at hr
          exact absurd hr (by decide)
        have hsi : seriesInv s := hser.resolve_left (fun he => hne he)
        by_cases hterm : s.currentDay + 1 > s.days
        · rw [step, if_pos hterm] at h
          injection h with h
          subst h
          refine ⟨Or.inr hsi, ?_, hgle, hgreq⟩
          intro hh
          have hh2 : SimulationStatus.COMPLETED = .IDLE := hh
          exact absurd hh2 (by decide)
        · have hnonempty : s.data ≠ [] := by
            intro he
            have h1 := hsi.1
            rw [he] at h1
            simp at h1
          obtain ⟨l, hl⟩ : ∃ l, s.data.getLast? = some l := by
            cases hgl : s.data.getLast? with
            | none => exact absurd (List.getLast?_eq_none_iff.mp hgl) hnonempty
            | some l => exact ⟨l, rfl⟩
          rw [step, if_neg hterm, hl] at h
          injection h with h
          subst h
          refine ⟨Or.inr ⟨?_, ?_⟩, ?_, hgle, hgreq⟩
          · simp [hsi.1]
          · have h1 := hsi.1
            have h2 := hsi.2
            simp only [List.map_append, List.map_cons, List.map_nil, List.length_append,
              List.length_cons, List.length_nil, Nat.zero_add, h2, h1]
            conv_rhs => rw [List.range_succ]
          · intro hh
            have hh2 : s.status = .IDLE := hh
            rw [hr] at hh2
            exact absurd hh2 (by decide)
      · simp only [applyEvent, hr, if_false] at h
        injection h with h
        subst h
        exact ⟨hser, hidle, hgle, hgreq⟩
  | togglePlay =>
      simp only [applyEvent, Option.some.injEq] at h
      subst h
      by_cases h1 : s.status = .RUNNING
      · rw [togglePlay, if_pos h1]
        have hne : s ≠ initialState := by
          intro he
          rw [he] at h1
          exact absurd h1 (by decide)
        refine ⟨Or.inr (hser.resolve_left hne), ?_, hgle, hgreq⟩
        intro hh
        have hh2 : SimulationStatus.PAUSED = .IDLE := hh
        exact absurd hh2 (by decide)
      · by_cases h2 : s.status = .COMPLETED ∨ (s.status = .IDLE ∧ s.currentDay = 0)
        · rw [togglePlay, if_neg h1, if_pos h2]
          refine ⟨Or.inr ⟨rfl, rfl⟩, ?_, by simp [resetSimulation], ?_⟩
          · intro hh
            have hh2 : SimulationStatus.RUNNING = .IDLE := hh
            exact absurd hh2 (by decide)
          · intro hh
            have hh2 : (1 : ℕ) ≤ 0 := hh
            omega
        · rw [togglePlay, if_neg h1, if_neg h2]
          have hne : s ≠ initialState := by
            intro he
            rw [he] at h2
            exact h2 (Or.inr ⟨rfl, rfl⟩)
          refine ⟨Or.inr (hser.resolve_left hne), ?_, hgle, hgreq⟩
          intro hh
          have hh2 : SimulationStatus.RUNNING = .IDLE := hh
          exact absurd hh2 (by decide)
  | reset =>
      simp only [applyEvent, Option.some.injEq] at h
      subst h
      exact stateInv_reset s
  | rateChange v =>
      by_cases hr : s.status = .RUNNING
      · simp only [applyEvent, hr, if_true, Option.some.injEq] at h
        subst h
        exact ⟨hser, hidle, hgle, hgreq⟩
      · simp only [applyEvent, hr, if_false, Option.some.injEq] at h
        subst h
        exact stateInv_reset _
  | daysChange n =>
      by_cases hr : s.status = .RUNNING
      · simp only [applyEvent, hr, if_true, Option.some.injEq] at h
        subst h
        exact ⟨hser, hidle, hgle, hgreq⟩
      · simp only [applyEvent, hr, if_false, Option.some.injEq] at h
        subst h
        exact stateInv_reset _
  | effectRun =>
      simp only [applyEvent, Option.some.injEq] at h
      subst h
      by_cases hg : effectGuard s = true
      · rw [effectFire, if_pos hg]
        obtain ⟨hst, hins, hld⟩ := effectGuard_eq_true hg
        have hgen0 : s.genRequests = 0 := by
          by_contra hne
          rcases hgreq (by omega) with hcase | hcase
          · rw [hld] at hcase
            exact absurd hcase (by decide)
          · exact hcase hins
        have hne : s ≠ initialState := by
          intro he
          rw [he] at hst
          exact absurd hst (by decide)
        refine ⟨Or.inr (hser.resolve_left hne), ?_, ?_, fun _ => Or.inl rfl⟩
        · intro hh
          have hh2 : s.status = .IDLE := hh
          rw [hst] at hh2
          exact absurd hh2 (by decide)
        · show s.genRequests + 1 ≤ 1
          omega
      · rw [effectFire, if_neg hg]
        exact ⟨hser, hidle, hgle, hgreq⟩
  | insightArrive r =>
      by_cases hl : s.loadingInsight = true
      · simp only [applyEvent, hl, if_true, Option.some.injEq] at h
        subst h
        have hne : s ≠ initialState := by
          intro he
          rw [he] at hl
          exact absurd hl (by decide)
        refine ⟨Or.inr (hser.resolve_left hne), fun hh => hidle hh, hgle, ?_⟩
        intro _
        refine Or.inr ?_
        intro hh
        have hh2 : some r = (none : Option AIInsight) := hh
        exact absurd hh2 (by simp)
      · simp only [applyEvent] at h
        rw [if_neg hl] at h
        injection h with h
        subst h
        exact ⟨hser, hidle, hgle, hgreq⟩

/-- The state invariant holds in every reachable state. -/
theorem reachable_stateInv {s : AppState} (h : Reachable s) : StateInv s := by
  induction h with
  | init => exact stateInv_init
  | next e _ heq ih => exact stateInv_preserved e heq ih

theorem reachable_w1 : Reachable wState1 :=
  .next (.daysChange 1) .init rfl

theorem reachable_w2 : Reachable wState2 :=
  .next .togglePlay reachable_w1 rfl

theorem reachable_w3 : Reachable wState3 := by
  refine .next .tick reachable_w2 ?_
  simp [applyEvent, wState2, wState1, handleDaysChange, resetSimulation, initialState,
    togglePlay, step, wState3]
  norm_num

theorem reachable_w4 : Reachable wState4 := by
  refine .next .tick reachable_w3 ?_
  simp [applyEvent, wState3, wState4, step]

theorem reachable_w5 : Reachable wState5 := by
  refine .next .effectRun reachable_w4 ?_
  simp [applyEvent, wState4, wState3, wState5, effectFire, effectGuard]

/-- Claim C1: for every valid config (`totalDays ≥ 1`, `dailyRate > -1`,
start value 1) and every `k ≤ totalDays`, the value at day `k` produced by
the incremental tick recurrence equals the closed-form Growth Engine value
`(1 + dailyRate) ^ k`, and the tick-built series is exactly the length-`(k+1)`
prefix of the series built by `calculateData`; in the exact rational model
the agreement is equality, hence within any floating-point tolerance. -/
theorem c1_ticks_agree_with_closed_form (d : ℕ) (rate : ℚ) (k : ℕ)
    (hd : 1 ≤ d) (hr : -1 < rate) (hk : k ≤ d) :
    ∃ s, runTicks (startFresh d rate) k = some s ∧
      s.currentValue = (1 + rate) ^ k ∧
      (calculateData d rate)[k]? =
        some { day := k, value := (1 + rate) ^ k, baseline := 1 } ∧
      s.data = (calculateData d rate).take (k + 1) := by
  refine ⟨canonState d rate k, ?_, rfl, ?_, ?_⟩
  · rw [startFresh_eq]
    exact runTicks_canon d rate k hk
  · rw [calculateData_eq, List.getElem?_map, List.getElem?_range (by omega : k < d + 1)]
    rfl
  · rw [calculateData_eq]
    show canonData rate k = _
    rw [← List.map_take, take_range_of_le (by omega : k + 1 ≤ d + 1)]
    rfl

theorem c1_witness :
    1 ≤ 5 ∧ (-1 : ℚ) < 1 / 100 ∧ 3 ≤ 5 ∧
      (∃ s, runTicks (startFresh 5 (1 / 100)) 3 = some s ∧
        s.currentValue = (1 + 1 / 100) ^ 3 ∧
        (calculateData 5 (1 / 100))[3]? =
          some { day := 3, value := (1 + 1 / 100) ^ 3, baseline := 1 } ∧
        s.data = (calculateData 5 (1 / 100)).take (3 + 1)) :=
  ⟨by omega, by norm_num, by omega,
    c1_ticks_agree_with_closed_form 5 (1 / 100) 3 (by omega) (by norm_num) (by omega)⟩

/-- Claim C2: in every reachable RUNNING state with `currentDay = totalDays`,
one tick transitions the status to COMPLETED and leaves `currentDay`,
`currentValue` and the series unchanged (no point is appended and no numeric
update is performed). -/
theorem c2_terminal_tick (s : AppState) (hreach : Reachable s)
    (hrun : s.status = .RUNNING) (hday : s.currentDay = s.days) :
    ∃ s', step s = some s' ∧ s'.status = .COMPLETED ∧
      s'.currentDay = s.currentDay ∧ s'.currentValue = s.currentValue ∧
      s'.data = s.data := by
  refine ⟨{ s with status := .COMPLETED }, ?_, rfl, rfl, rfl, rfl⟩
  rw [step, if_pos (by omega : s.currentDay + 1 > s.days)]

theorem c2_witness :
    ∃ s', step wState3 = some s' ∧ s'.status = .COMPLETED ∧
      s'.currentDay = wState3.currentDay ∧ s'.currentValue = wState3.currentValue ∧
      s'.data = wState3.data :=
  c2_terminal_tick wState3 reachable_w3 rfl rfl

/-- Claim C3, counterexample: the freshly created (initial) state is
reachable and violates the series prefix invariant, because the source
initialises `data` to the empty array while `currentDay` is 0, so
`series.length = 0 ≠ currentDay + 1`. -/
theorem c3_counterexample : Reachable initialState ∧ ¬ seriesInv initialState := by
  refine ⟨.init, ?_⟩
  intro hinv
  have h1 := hinv.1
  simp [initialState] at h1

/-- Claim C3, amended: every reachable state other than the freshly created
one satisfies the series prefix invariant `series.length = currentDay + 1`
and `series[i].day = i` for every index; every operation preserves it once
it holds. -/
theorem c3_series_prefix_amended (s : AppState) (h : Reachable s) :
    s = initialState ∨ seriesInv s :=
  (reachable_stateInv h).1

theorem c3_witness : wState1 = initialState ∨ seriesInv wState1 :=
  c3_series_prefix_amended wState1 reachable_w1

/-- Claim C4, counterexample: a configuration change to `totalDays = 0`
(below 1) or to `dailyRate = -1.5` (at most -1) is not rejected: the invalid
value is stored and the prior valid run state (PAUSED at day 1 with a
two-point series) is discarded rather than retained. -/
theorem c4_counterexample :
    (handleDaysChange sPaused 0).days = 0 ∧
      handleDaysChange sPaused 0 ≠ sPaused ∧
      (handleDaysChange sPaused 0).currentDay ≠ sPaused.currentDay ∧
      (handleDaysChange sPaused 0).data ≠ sPaused.data ∧
      (handleRateChange sPaused (-150)).improvementRate = -(3 / 2) ∧
      (handleRateChange sPaused (-150)).improvementRate ≤ -1 := by
  refine ⟨rfl, ?_, ?_, ?_, by norm_num [handleRateChange, resetSimulation], by norm_num [handleRateChange, resetSimulation]⟩
  · intro he
    have := congrArg AppState.days he
    simp [handleDaysChange, resetSimulation, sPaused] at this
  · simp [handleDaysChange, resetSimulation, sPaused]
  · simp [handleDaysChange, resetSimulation, sPaused]

/-- Claim C4, amended: configuration changes are never rejected; both
handlers unconditionally store the new value (including `totalDays < 1` and
`dailyRate ≤ -1`) and reset the run state to the fresh IDLE state. -/
theorem c4_amended (s : AppState) (n : ℕ) (v : ℚ) :
    (handleDaysChange s n).days = n ∧
      (handleDaysChange s n).status = .IDLE ∧
      (handleDaysChange s n).currentDay = 0 ∧
      (handleDaysChange s n).currentValue = 1 ∧
      (handleDaysChange s n).data = [{ day := 0, value := 1, baseline := 1 }] ∧
      (handleRateChange s v).improvementRate = v / 100 ∧
      (handleRateChange s v).status = .IDLE ∧
      (handleRateChange s v).currentDay = 0 ∧
      (handleRateChange s v).currentValue = 1 ∧
      (handleRateChange s v).data = [{ day := 0, value := 1, baseline := 1 }] :=
  ⟨rfl, rfl, rfl, rfl, rfl, rfl, rfl, rfl, rfl, rfl⟩

/-- Claim C5, counterexample: invoking start on a state with status IDLE
and `currentDay = 1` resumes at the stale day instead of performing a
reset-then-start: the result is RUNNING with `currentDay = 1`, the stale
`currentValue` and the stale series. -/
theorem c5_counterexample :
    sIdleStale.status = .IDLE ∧ 0 < sIdleStale.currentDay ∧
      (togglePlay sIdleStale).status = .RUNNING ∧
      (togglePlay sIdleStale).currentDay = 1 ∧
      (togglePlay sIdleStale).currentValue ≠ 1 ∧
      (togglePlay sIdleStale).data ≠ [{ day := 0, value := 1, baseline := 1 }] := by
  have hneq : ¬ sIdleStale.status = SimulationStatus.RUNNING := by decide
  have hneq2 : ¬ (sIdleStale.status = .COMPLETED ∨
      (sIdleStale.status = .IDLE ∧ sIdleStale.currentDay = 0)) := by
    intro hc
    rcases hc with hc | hc
    · exact absurd hc (by decide)
    · exact absurd hc.2 (by decide)
  refine ⟨rfl, Nat.one_pos, ?_, ?_, ?_, ?_⟩ <;>
    rw [togglePlay, if_neg hneq, if_neg hneq2] <;>
    norm_num [sIdleStale]

/-- Claim C5, amended: start from IDLE with `currentDay > 0` merely resumes
(only the status changes to RUNNING); however such states are unreachable:
every reachable IDLE state has `currentDay = 0`, and start from a reachable
IDLE state performs the fresh start with day 0, value 1 and series
`[point 0]`. -/
theorem c5_start_amended (s : AppState) :
    (s.status = .IDLE → 0 < s.currentDay →
        togglePlay s = { s with status := .RUNNING }) ∧
      (Reachable s → s.status = .IDLE →
        s.currentDay = 0 ∧ (togglePlay s).status = .RUNNING ∧
          (togglePlay s).currentDay = 0 ∧ (togglePlay s).currentValue = 1 ∧
          (togglePlay s).data = [{ day := 0, value := 1, baseline := 1 }] ∧
          (togglePlay s).insight = none) := by
  constructor
  · intro hidle hday
    rw [togglePlay, if_neg (by rw [hidle]; decide), if_neg ?_]
    intro hcase
    rcases hcase with hc | hc
    · rw [hidle] at hc
      exact absurd hc (by decide)
    · omega
  · intro hreach hidle
    have hday : s.currentDay = 0 := (reachable_stateInv hreach).2.1 hidle
    rw [togglePlay, if_neg (by rw [hidle]; decide), if_pos (Or.inr ⟨hidle, hday⟩)]
    exact ⟨hday, rfl, rfl, rfl, rfl, rfl⟩

theorem c5_witness :
    togglePlay sIdleStale = { sIdleStale with status := .RUNNING } ∧
      (wState1.currentDay = 0 ∧ (togglePlay wState1).status = .RUNNING ∧
        (togglePlay wState1).currentDay = 0 ∧ (togglePlay wState1).currentValue = 1 ∧
        (togglePlay wState1).data = [{ day := 0, value := 1, baseline := 1 }] ∧
        (togglePlay wState1).insight = none) :=
  ⟨(c5_start_amended sIdleStale).1 rfl Nat.one_pos,
    (c5_start_amended wState1).2 reachable_w1 rfl⟩

/-- Claim C6: reset from any prior state yields the state with status IDLE,
`currentDay = 0`, `currentValue = 1` (the start value), series `[point 0]`
and no cached insight, and reset is idempotent. -/
theorem c6_reset_idempotent (s : AppState) :
    (resetSimulation s).status = .IDLE ∧
      (resetSimulation s).currentDay = 0 ∧
      (resetSimulation s).currentValue = 1 ∧
      (resetSimulation s).data = [{ day := 0, value := 1, baseline := 1 }] ∧
      (resetSimulation s).insight = none ∧
      resetSimulation (resetSimulation s) = resetSimulation s :=
  ⟨rfl, rfl, rfl, rfl, rfl, rfl⟩

/-- Claim C7: the insight request always resolves to some `AIInsight` and
never propagates a transport error: with no API key it returns the fixed
static non-empty payload `fallbackNotConfigured`, and when the external call
fails it returns the distinct fixed static non-empty payload
`fallbackCallFailed`. -/
theorem c7_insight_always_resolves (key : String) (res : Except String AIInsight) :
    (generateGrowthInsight key res = fallbackNotConfigured ∨
      generateGrowthInsight key res = fallbackCallFailed ∨
      ∃ r, res = .ok r ∧ generateGrowthInsight key res = r) ∧
    (key = "" → generateGrowthInsight key res = fallbackNotConfigured) ∧
    (key ≠ "" → ∀ e, res = .error e → generateGrowthInsight key res = fallbackCallFailed) ∧
    fallbackNotConfigured ≠ fallbackCallFailed ∧
    fallbackNotConfigured.title ≠ "" ∧ fallbackNotConfigured.message ≠ "" ∧
    fallbackNotConfigured.analogy ≠ "" ∧ fallbackCallFailed.title ≠ "" ∧
    fallbackCallFailed.message ≠ "" ∧ fallbackCallFailed.analogy ≠ "" := by
  refine ⟨?_, ?_, ?_, by decide, by decide, by decide, by decide, by decide, by decide,
    by decide⟩
  · by_cases hk : key = ""
    · refine Or.inl ?_
      unfold generateGrowthInsight
      rw [if_pos hk]
    · cases res with
      | ok r =>
          refine Or.inr (Or.inr ⟨r, rfl, ?_⟩)
          unfold generateGrowthInsight
          rw [if_neg hk]
      | error e =>
          refine Or.inr (Or.inl ?_)
          unfold generateGrowthInsight
          rw [if_neg hk]
  · intro hk
    unfold generateGrowthInsight
    rw [if_pos hk]
  · intro hk e hres
    unfold generateGrowthInsight
    rw [if_neg hk, hres]

theorem c7_witness :
    generateGrowthInsight "" (.ok { title := "a", message := "b", analogy := "c" }) =
        fallbackNotConfigured ∧
      generateGrowthInsight "k" (.error "boom") = fallbackCallFailed :=
  ⟨(c7_insight_always_resolves "" (.ok { title := "a", message := "b", analogy := "c" })).2.1
      rfl,
    (c7_insight_always_resolves "k" (.error "boom")).2.2.1 (by decide) "boom" rfl⟩

/-- Claim C8, counterexample: along the trace `badTrace` the second run
reaches COMPLETED with zero insight requests issued in its generation, and
the effect guard is permanently off (a stale insight is cached), so no
request is ever fired for that completed run — the request from the first
generation was still pending when the second run completed, because reset
does not clear `loadingInsight`. -/
theorem c8_counterexample :
    (runTrace initialState badTrace).map
        (fun s => (s.status, s.genRequests, s.loadingInsight, effectGuard s)) =
      some (.COMPLETED, 0, false, false) := by
  simp [runTrace, badTrace, applyEvent, initialState, handleDaysChange, resetSimulation,
    togglePlay, step, effectFire, effectGuard, insightArrive]

/-- Claim C8, amended: at most one insight request is issued per run
generation — in every reachable state the generation request count is at
most 1, and once a request has been issued in the current generation it is
either still pending or already satisfied by a cached insight, which keeps
the completion effect guard off and prevents any duplicate request. -/
theorem c8_at_most_one_request (s : AppState) (hreach : Reachable s) :
    s.genRequests ≤ 1 ∧
      (1 ≤ s.genRequests → s.loadingInsight = true ∨ s.insight ≠ none) :=
  ⟨(reachable_stateInv hreach).2.2.1, (reachable_stateInv hreach).2.2.2⟩

theorem c8_witness :
    wState5.genRequests ≤ 1 ∧
      (1 ≤ wState5.genRequests → wState5.loadingInsight = true ∨ wState5.insight ≠ none) :=
  c8_at_most_one_request wState5 reachable_w5

/-- Claim C9: in every reachable RUNNING state the series is non-empty, so
the unguarded access to the last series element inside the tick is always in
bounds and the tick succeeds (never reaches the out-of-bounds branch). -/
theorem c9_running_series_nonempty (s : AppState) (hreach : Reachable s)
    (hrun : s.status = .RUNNING) :
    s.data ≠ [] ∧ (step s).isSome = true := by
  have hsi : seriesInv s := by
    rcases (reachable_stateInv hreach).1 with he | hsi
    · rw [he] at hrun
      exact absurd hrun (by decide)
    · exact hsi
  have hne : s.data ≠ [] := by
    intro he
    have h1 := hsi.1
    rw [he] at h1
    simp at h1
  refine ⟨hne, ?_⟩
  rw [step]
  by_cases hterm : s.currentDay + 1 > s.days
  · rw [if_pos hterm]
    rfl
  · rw [if_neg hterm]
    obtain ⟨l, hl⟩ : ∃ l, s.data.getLast? = some l := by
      cases hgl : s.data.getLast? with
      | none => exact absurd (List.getLast?_eq_none_iff.mp hgl) hne
      | some l => exact ⟨l, rfl⟩
    rw [hl]
    rfl

theorem c9_witness : wState2.data ≠ [] ∧ (step wState2).isSome = true :=
  c9_running_series_nonempty wState2 reachable_w2 rfl

/-- Claim C10: for every `currentValue ≥ 1` the orb diameter
`min 400 (64 + log2 currentValue * 40)` is at least 64, at most 400, and
monotonically non-decreasing in `currentValue`. -/
theorem c10_orb_size_bounded_monotone (v w : ℝ) (hv : 1 ≤ v) (hw : v ≤ w) :
    64 ≤ orbSize v ∧ orbSize v ≤ 400 ∧ orbSize v ≤ orbSize w := by
  have hv0 : (0 : ℝ) < v := lt_of_lt_of_le one_pos hv
  have hlogv : 0 ≤ Real.logb 2 v := Real.logb_nonneg (by norm_num) hv
  have hmono : Real.logb 2 v ≤ Real.logb 2 w :=
    Real.logb_le_logb_of_le (by norm_num) hv0 hw
  refine ⟨le_min (by norm_num) (by linarith), min_le_left _ _, ?_⟩
  exact min_le_min le_rfl (by linarith)

theorem c10_witness :
    (1 : ℝ) ≤ 1 ∧ (1 : ℝ) ≤ 2 ∧
      (64 ≤ orbSize 1 ∧ orbSize 1 ≤ 400 ∧ orbSize 1 ≤ orbSize 2) :=
  ⟨le_refl 1, one_le_two, c10_orb_size_bounded_monotone 1 2 (le_refl 1) one_le_two⟩
